import Mathlib

/-!
Shallow embedding of src/databroker/assets/column_hdf5.py.

Strings are modelled as lists of characters so that the '/'-separator
manipulation (str.partition, substring containment) is plain structural
recursion.  The per-resource HDF5 payload container is modelled as an
H5File record: the generated local-id column (dataset 'datum_id') plus
the kwargs columns.  The directory of containers and the in-process
datum cache are association lists keyed by resource uid.  The uuid4
stream is passed explicitly, so freshness of generated ids becomes an
explicit hypothesis.  Raised Python exceptions become an Err value in
an Except result: DatumNotFound (the class defined in the module),
keyError (an uncaught pandas/h5py KeyError), fileNotFound (OSError on
opening a missing container), bareRaise (the bare `raise` statement,
i.e. RuntimeError), valueError (tuple-unpacking mismatch).
-/

namespace Databroker

abbrev Str := List Char

abbrev Row := List (Str × Int)

/-- Python exceptions that the module can raise, as distinct values. -/
inductive Err where
  | datumNotFound
  | keyError (k : Str)
  | fileNotFound (k : Str)
  | bareRaise
  | valueError
deriving DecidableEq, Repr

/-- The per-resource HDF5 container: the stored 'datum_id' dataset of
generated local ids plus the kwargs column datasets. -/
structure H5File where
  datumIds : List Str
  cols : List (Str × List Int)
deriving DecidableEq, Repr

/-- The directory of containers, keyed by resource uid
(file {datum_col}/{resource_uid}.h5). -/
abbrev Store := List (Str × H5File)

/-- The in-process datum cache, keyed by resource uid. -/
abbrev Cache := List (Str × H5File)

/-- The datum document returned by insert_datum. -/
structure Datum where
  resource : Str
  datum_id : Str
  datum_kwargs : Row
deriving DecidableEq, Repr

/-- Dictionary lookup on an association list. -/
def alookup {α : Type} : List (Str × α) → Str → Option α
  | [], _ => none
  | p :: rest, k => if p.1 = k then some p.2 else alookup rest k

/-- Dictionary update on an association list (overwrites any previous
binding for the key). -/
def aset {α : Type} (l : List (Str × α)) (k : Str) (v : α) : List (Str × α) :=
  (k, v) :: l.filter (fun p => decide (p.1 ≠ k))

/-- Python `'/' in s`. -/
def containsSep : Str → Bool
  | [] => false
  | c :: cs => c = '/' || containsSep cs

/-- Python `s.partition('/')`, dropping the middle component: the prefix
before the first '/' and the remainder after it.  When no separator is
present the result is (s, []), exactly as str.partition gives
(s, "", ""). -/
def partitionSep : Str → Str × Str
  | [] => ([], [])
  | c :: cs =>
    if c = '/' then ([], cs)
    else
      let p := partitionSep cs
      (c :: p.1, p.2)

/-- The format expression '\x7b\x7d/\x7b\x7d'.format(resource_uid, d)
used at lines 46 and 115 of column_hdf5.py. -/
def make_datum_id (resource_uid d : Str) : Str := resource_uid ++ '/' :: d

/-- Modelled from the spec: doc_or_uid_to_uid (databroker.assets.core) is
not under src/; the spec says the insert operations "resolve resource to
a uid", so on a uid string it is the identity. -/
def doc_or_uid_to_uid (resource : Str) : Str := resource

/-- Modelled from the spec: append (databroker.headersource.hdf5) is not
under src/; per the spec's append_row, it appends the given rows at the
end of a stored dataset. -/
def append {α : Type} (dataset : List α) (data : List α) : List α :=
  dataset ++ data

/-- h5py `fout[k]` followed by append: extend dataset k with one value;
an absent dataset name raises KeyError. -/
def appendCol : List (Str × List Int) → Str → Int → Except Err (List (Str × List Int))
  | [], k, _ => .error (.keyError k)
  | p :: rest, k, v =>
    if p.1 = k then .ok ((p.1, append p.2 [v]) :: rest)
    else
      match appendCol rest k v with
      | .ok rest' => .ok (p :: rest')
      | .error e => .error e

/-- The loop `for k, v in datum_kwargs.items(): append(fout[k], [v])` in
insert_datum. -/
def appendKwargs (cols : List (Str × List Int)) : Row → Except Err (List (Str × List Int))
  | [] => .ok cols
  | p :: rest =>
    match appendCol cols p.1 p.2 with
    | .ok cols' => appendKwargs cols' rest
    | .error e => .error e

/-- pandas index lookup df.loc: position of a local id in the stored
'datum_id' index (first occurrence). -/
def locIdx : List Str → Str → Option Nat
  | [], _ => none
  | i :: is, d => if i = d then some 0 else (locIdx is d).map (· + 1)

/-- dict(df.loc[d_uid]): the row of every column at one position. -/
def rowAt (cols : List (Str × List Int)) (i : Nat) : Row :=
  cols.map (fun p => (p.1, p.2.getD i 0))

/-- Python `handler(**row)`: keyword-argument unpacking passes the row as
a name-to-value mapping, so handlers observe a row only through this
(order-insensitive) mapping. -/
def rowFun (r : Row) : Str → Option Int := fun k => alookup r k

/-- pd.DataFrame(list_of_row_dicts): the columns are keyed by the first
row's keys; each column collects that key's value across the rows. -/
def pdDataFrame (rows : List Row) : List (Str × List Int) :=
  match rows.head? with
  | none => []
  | some r0 => r0.map (fun p => (p.1, rows.map (fun r => (alookup r p.1).getD 0)))

/-- bulk_register_datum_table (column_hdf5.py lines 39-59).  `nrows` is
len(dkwargs_table) and `uuid_gen` the stream of values str(uuid.uuid4())
would produce, so the code's `d_ids` list is `uuid_gen.take nrows`.  The
h5py.File(..., 'w') call truncates: aset overwrites any existing
container for the resource. -/
def bulk_register_datum_table (datum_col : Store) (resource_col : Option Unit)
    (resource_uid : Str) (dkwargs_table : List (Str × List Int)) (nrows : Nat)
    (uuid_gen : List Str) (validate : Bool) : Except Err (Store × List Str) :=
  if validate then .error .bareRaise
  else
    let d_ids := uuid_gen.take nrows
    let datum_ids := d_ids.map (make_datum_id resource_uid)
    let fout : H5File := { datumIds := d_ids, cols := dkwargs_table }
    .ok (aset datum_col resource_uid fout, datum_ids)

/-- retrieve (column_hdf5.py lines 62-77).  The handler obtained from
get_spec_handler receives the row through keyword unpacking (rowFun).
The returned cache reflects the in-place fill `datum_cache[r_uid] = df`
on a miss. -/
def retrieve {β : Type} (col : Store) (datum_id : Str) (datum_cache : Cache)
    (get_spec_handler : Str → (Str → Option Int) → β) (logger : Unit) :
    Except Err (β × Cache) :=
  if containsSep datum_id = false then .error .datumNotFound
  else
    let p := partitionSep datum_id
    let r_uid := p.1
    let d_uid := p.2
    let handler := get_spec_handler r_uid
    match alookup datum_cache r_uid with
    | some df =>
      match locIdx df.datumIds d_uid with
      | none => .error (.keyError d_uid)
      | some i => .ok (handler (rowFun (rowAt df.cols i)), datum_cache)
    | none =>
      match alookup col r_uid with
      | none => .error (.fileNotFound r_uid)
      | some fin =>
        let cache' := aset datum_cache r_uid fin
        match locIdx fin.datumIds d_uid with
        | none => .error (.keyError d_uid)
        | some i => .ok (handler (rowFun (rowAt fin.cols i)), cache')

/-- resource_given_datum_id (column_hdf5.py lines 96-98): a pure
projection of datum_id.partition('/'); the col, cache and logger
arguments are never consulted. -/
def resource_given_datum_id (col : Store) (datum_id : Str) (datum_cache : Cache)
    (logger : Unit) : Str :=
  (partitionSep datum_id).1

/-- bulk_insert_datum (column_hdf5.py lines 100-107).  The caller-supplied
datum_ids argument is never used; validate is passed as False. -/
def bulk_insert_datum (col : Store) (resource : Str) (datum_ids : List Str)
    (datum_kwarg_list : List Row) (uuid_gen : List Str) :
    Except Err (Store × List Str) :=
  bulk_register_datum_table col none (doc_or_uid_to_uid resource)
    (pdDataFrame datum_kwarg_list) datum_kwarg_list.length uuid_gen false

/-- insert_datum (column_hdf5.py lines 109-127).  `d_id` is the one value
str(uuid.uuid4()) would generate in this call (either branch consumes
exactly one).  The caller-supplied datum_id argument is never used. -/
def insert_datum (datum_col : Store) (resource : Str) (datum_id : Str)
    (datum_kwargs : Row) (known_spec : Unit) (resource_col : Option Unit)
    (d_id : Str) : Except Err (Store × Datum) :=
  let resource := doc_or_uid_to_uid resource
  match alookup datum_col resource with
  | some fout =>
    let d_uid := make_datum_id resource d_id
    match appendKwargs fout.cols datum_kwargs with
    | .error e => .error e
    | .ok cols' =>
      .ok (aset datum_col resource { datumIds := append fout.datumIds [d_id], cols := cols' },
           { resource := resource, datum_id := d_uid, datum_kwargs := datum_kwargs })
  | none =>
    match bulk_register_datum_table datum_col resource_col resource
        (datum_kwargs.map (fun p => (p.1, [p.2]))) 1 [d_id] false with
    | .error e => .error e
    | .ok (store', ids) =>
      match ids with
      | [d_uid] =>
        .ok (store', { resource := resource, datum_id := d_uid, datum_kwargs := datum_kwargs })
      | _ => .error .valueError

/-- A sequence of insert_datum calls against one resource, one fresh
generated id per call, collecting the returned datum_ids. -/
def insertMany (resource : Str) : Store → List Row → List Str → Except Err (Store × List Str)
  | store, [], _ => .ok (store, [])
  | _, _ :: _, [] => .error .valueError
  | store, r :: rs, i :: is =>
    match insert_datum store resource [] r () none i with
    | .error e => .error e
    | .ok (store', d) =>
      match insertMany resource store' rs is with
      | .error e => .error e
      | .ok (store'', dids) => .ok (store'', d.datum_id :: dids)

/-- The container contents produced by materializing a list of kwargs
rows (all sharing the key list K) with the given generated local ids. -/
def tableFile (K : List Str) (rows : List Row) (ids : List Str) : H5File :=
  { datumIds := ids,
    cols := K.map (fun k => (k, rows.map (fun r => (alookup r k).getD 0))) }

/-! Basic lemmas about the dictionary, separator and index helpers. -/

theorem alookup_nil {α : Type} (k : Str) : alookup ([] : List (Str × α)) k = none := rfl

theorem alookup_filter_ne {α : Type} (l : List (Str × α)) (k k' : Str) (h : k' ≠ k) :
    alookup (l.filter (fun p => decide (p.1 ≠ k))) k' = alookup l k' := by
  induction l with
  | nil => rfl
  | cons p rest ih =>
    rw [List.filter_cons]
    by_cases hp : p.1 = k
    · have h2 : ¬ p.1 = k' := fun hc => h (hc ▸ hp)
      rw [if_neg (by simp [hp])]
      rw [ih]
      simp [alookup, h2]
    · rw [if_pos (by simp [hp])]
      by_cases hk' : p.1 = k'
      · simp [alookup, hk']
      · simp only [alookup, if_neg hk']
        exact ih

theorem alookup_aset_self {α : Type} (l : List (Str × α)) (k : Str) (v : α) :
    alookup (aset l k v) k = some v := by
  simp [aset, alookup]

theorem alookup_aset_ne {α : Type} (l : List (Str × α)) (k k' : Str) (v : α) (h : k' ≠ k) :
    alookup (aset l k v) k' = alookup l k' := by
  simp only [aset, alookup]
  rw [if_neg (fun hc => h hc.symm)]
  exact alookup_filter_ne l k k' h

theorem containsSep_append_sep (a b : Str) : containsSep (a ++ '/' :: b) = true := by
  induction a with
  | nil => simp [containsSep]
  | cons c cs ih => simp [containsSep, ih]

theorem partitionSep_no_sep (s : Str) (h : containsSep s = false) :
    partitionSep s = (s, []) := by
  induction s with
  | nil => rfl
  | cons c cs ih =>
    simp only [containsSep, Bool.or_eq_false_iff, decide_eq_false_iff_not] at h
    simp [partitionSep, h.1, ih h.2]

theorem partitionSep_append (a b : Str) (h : containsSep a = false) :
    partitionSep (a ++ '/' :: b) = (a, b) := by
  induction a with
  | nil => simp [partitionSep]
  | cons c cs ih =>
    simp only [containsSep, Bool.or_eq_false_iff, decide_eq_false_iff_not] at h
    simp [partitionSep, h.1, ih h.2]

theorem make_datum_id_inj (r : Str) : Function.Injective (make_datum_id r) := by
  intro a b hab
  simpa [make_datum_id] using hab

theorem locIdx_get (ids : List Str) (h : ids.Nodup) (j : Nat) (hj : j < ids.length) :
    locIdx ids (ids.get ⟨j, hj⟩) = some j := by
  induction ids generalizing j with
  | nil => exact absurd hj (Nat.not_lt_zero j)
  | cons i is ih =>
    cases j with
    | zero => simp [locIdx]
    | succ j' =>
      have hmem : is.get ⟨j', Nat.lt_of_succ_lt_succ hj⟩ ∈ is :=
        List.get_mem is j' (Nat.lt_of_succ_lt_succ hj)
      have hne : i ≠ is.get ⟨j', Nat.lt_of_succ_lt_succ hj⟩ := by
        intro hc
        exact (List.nodup_cons.mp h).1 (hc ▸ hmem)
      simp only [List.get_cons_succ, locIdx, if_neg hne]
      rw [ih (List.nodup_cons.mp h).2 j' (Nat.lt_of_succ_lt_succ hj)]
      rfl

theorem getD_map_lt {α β : Type} (f : α → β) (l : List α) (j : Nat) (hj : j < l.length)
    (d : β) : (l.map f).getD j d = f (l.get ⟨j, hj⟩) := by
  induction l generalizing j with
  | nil => exact absurd hj (Nat.not_lt_zero j)
  | cons x xs ih =>
    cases j with
    | zero => rfl
    | succ j' => exact ih j' (Nat.lt_of_succ_lt_succ hj)

theorem map_keys_alookup {α : Type} (r : Row) (h : (r.map Prod.fst).Nodup)
    (g : Int → α) :
    (r.map Prod.fst).map (fun k => (k, g ((alookup r k).getD 0))) =
      r.map (fun p => (p.1, g p.2)) := by
  induction r with
  | nil => rfl
  | cons p rest ih =>
    simp only [List.map_cons, List.nodup_cons] at h ⊢
    have hcong : ∀ k ∈ rest.map Prod.fst,
        (k, g ((alookup (p :: rest) k).getD 0)) = (k, g ((alookup rest k).getD 0)) := by
      intro k hk
      have hne : ¬ p.1 = k := fun hc => h.1 (hc ▸ hk)
      simp [alookup, hne]
    rw [List.map_congr_left hcong, ih h.2]
    simp [alookup]

/-! Lemmas about appending one row to the stored columns. -/

theorem appendCol_skip (k₀ : Str) (x : List Int) (cols : List (Str × List Int))
    (k : Str) (v : Int) (h : ¬ k₀ = k) :
    appendCol ((k₀, x) :: cols) k v =
      (appendCol cols k v).map (fun cs => (k₀, x) :: cs) := by
  simp only [appendCol, if_neg h]
  cases appendCol cols k v <;> rfl

theorem appendKwargs_skip (k₀ : Str) (x : List Int) (cols : List (Str × List Int))
    (kwargs : Row) (h : ¬ k₀ ∈ kwargs.map Prod.fst) :
    appendKwargs ((k₀, x) :: cols) kwargs =
      (appendKwargs cols kwargs).map (fun cs => (k₀, x) :: cs) := by
  induction kwargs generalizing cols x with
  | nil => rfl
  | cons p rest ih =>
    simp only [List.map_cons, List.mem_cons, not_or] at h
    simp only [appendKwargs, appendCol_skip k₀ x cols p.1 p.2 h.1]
    cases hc : appendCol cols p.1 p.2 with
    | error e => rfl
    | ok cols' =>
      simp only [Except.map]
      exact ih _ _ h.2

theorem appendKwargs_aligned (cols : List (Str × List Int)) (kwargs : Row)
    (hkeys : cols.map Prod.fst = kwargs.map Prod.fst)
    (hnd : (kwargs.map Prod.fst).Nodup) :
    appendKwargs cols kwargs =
      .ok ((cols.zip kwargs).map (fun pq => (pq.1.1, pq.1.2 ++ [pq.2.2]))) := by
  induction cols generalizing kwargs with
  | nil =>
    cases kwargs with
    | nil => rfl
    | cons q ws => simp at hkeys
  | cons p cs ih =>
    cases kwargs with
    | nil => simp at hkeys
    | cons q ws =>
      simp only [List.map_cons, List.cons.injEq] at hkeys
      simp only [List.map_cons, List.nodup_cons] at hnd
      obtain ⟨hpq, htail⟩ := hkeys
      simp only [appendKwargs]
      rw [show appendCol (p :: cs) q.1 q.2 = .ok ((p.1, p.2 ++ [q.2]) :: cs) from by
        simp [appendCol, hpq, append]]
      show appendKwargs ((p.1, p.2 ++ [q.2]) :: cs) ws =
        .ok (((p :: cs).zip (q :: ws)).map (fun pq => (pq.1.1, pq.1.2 ++ [pq.2.2])))
      have hnotin : ¬ p.1 ∈ ws.map Prod.fst := by
        rw [hpq]
        exact hnd.1
      rw [appendKwargs_skip p.1 (p.2 ++ [q.2]) cs ws hnotin, ih ws htail hnd.2]
      simp [Except.map, List.zip_cons_cons]

/-! Claim theorems: the easy structural ones. -/

/-- Claim C4: for every resource uid not containing the separator and
every local id, splitting the concatenated datum_id recovers exactly the
pair; bulk registration returns exactly the ids of that concatenated
form, so the owning resource uid of every id it produces is recoverable
by splitting on the first separator. -/
theorem C4_split_make_datum_id (r l : Str) (store : Store) (rc : Option Unit)
    (table : List (Str × List Int)) (nrows : Nat) (gen : List Str)
    (h : containsSep r = false) :
    partitionSep (make_datum_id r l) = (r, l) ∧
    bulk_register_datum_table store rc r table nrows gen false =
      .ok (aset store r { datumIds := gen.take nrows, cols := table },
           (gen.take nrows).map (make_datum_id r)) ∧
    ∀ d : Str, (partitionSep (make_datum_id r d)).1 = r := by
  refine ⟨partitionSep_append r l h, rfl, fun d => ?_⟩
  rw [make_datum_id, partitionSep_append r d h]

theorem C4_witness :
    containsSep ['r', '1'] = false ∧
    (partitionSep (make_datum_id ['r', '1'] ['x']) = (['r', '1'], ['x']) ∧
     bulk_register_datum_table [] none ['r', '1'] [(['v'], [3])] 1 [['a']] false =
       .ok (aset [] ['r', '1'] { datumIds := [['a']], cols := [(['v'], [3])] },
            [['a']].map (make_datum_id ['r', '1'])) ∧
     ∀ d : Str, (partitionSep (make_datum_id ['r', '1'] d)).1 = ['r', '1']) :=
  ⟨by decide, C4_split_make_datum_id ['r', '1'] ['x'] [] none [(['v'], [3])] 1 [['a']] (by decide)⟩

/-- Claim C5: retrieve on any datum_id without a separator fails with
DatumNotFound, whatever the store, the cache and the handler registry
are: the failure precedes handler lookup, cache access and backend
read. -/
theorem C5_no_sep_datum_not_found {β : Type} (col : Store) (datum_id : Str)
    (datum_cache : Cache) (get_spec_handler : Str → (Str → Option Int) → β)
    (logger : Unit) (h : containsSep datum_id = false) :
    retrieve col datum_id datum_cache get_spec_handler logger = .error .datumNotFound := by
  simp [retrieve, h]

theorem C5_witness :
    containsSep ['n', 'o', 't', '-', 'a', '-', 'v', 'a', 'l', 'i', 'd', '-', 'i', 'd'] = false ∧
    retrieve [] ['n', 'o', 't', '-', 'a', '-', 'v', 'a', 'l', 'i', 'd', '-', 'i', 'd'] []
      (fun _ _ => (0 : Int)) () = .error .datumNotFound :=
  ⟨by decide,
   C5_no_sep_datum_not_found [] _ [] (fun _ _ => (0 : Int)) () (by decide)⟩

/-- Claim C8: bulk datum registration with the validate option set fails
deterministically, for every store, table and id stream alike, so no
write is performed and the store is unchanged; the option is never
silently ignored.  The failure is the bare `raise` statement of line 43
(a RuntimeError), modelled as the distinguished error bareRaise. -/
theorem C8_validate_always_fails (datum_col : Store) (resource_col : Option Unit)
    (resource_uid : Str) (dkwargs_table : List (Str × List Int)) (nrows : Nat)
    (uuid_gen : List Str) :
    bulk_register_datum_table datum_col resource_col resource_uid dkwargs_table
      nrows uuid_gen true = .error .bareRaise := rfl

/-- Claim C9: the caller-supplied datum-id arguments are dead: two
bulk_insert_datum calls differing only in datum_ids, and two insert_datum
calls differing only in datum_id, with the same id-generation stream,
return identical results and write identical stores. -/
theorem C9_datum_id_args_ignored (col : Store) (resource : Str)
    (dids1 dids2 : List Str) (table : List Row) (gen : List Str)
    (did1 did2 : Str) (kwargs : Row) (ks : Unit) (rc : Option Unit) (d : Str) :
    bulk_insert_datum col resource dids1 table gen =
      bulk_insert_datum col resource dids2 table gen ∧
    insert_datum col resource did1 kwargs ks rc d =
      insert_datum col resource did2 kwargs ks rc d :=
  ⟨rfl, rfl⟩

/-- Claim C10: resource_given_datum_id is total, ignores the store, the
cache and the logger, and returns the prefix of the datum_id before the
first separator: the whole input when no separator is present, and the
left part of any separator-free prefix otherwise. -/
theorem C10_resource_given_datum_id_total (col col' : Store) (cache cache' : Cache)
    (lg lg' : Unit) (s t a b : Str) (hs : containsSep s = false)
    (ha : containsSep a = false) :
    resource_given_datum_id col t cache lg = (partitionSep t).1 ∧
    resource_given_datum_id col t cache lg = resource_given_datum_id col' t cache' lg' ∧
    resource_given_datum_id col s cache lg = s ∧
    resource_given_datum_id col (make_datum_id a b) cache lg = a := by
  refine ⟨rfl, rfl, ?_, ?_⟩
  · rw [resource_given_datum_id, partitionSep_no_sep s hs]
  · rw [resource_given_datum_id, make_datum_id, partitionSep_append a b ha]

theorem C10_witness :
    containsSep ['u', 'i', 'd'] = false ∧
    containsSep ['r'] = false ∧
    (resource_given_datum_id [] ['r', '/', 'x'] [] () = (partitionSep ['r', '/', 'x']).1 ∧
     resource_given_datum_id [] ['r', '/', 'x'] [] () =
       resource_given_datum_id [(['q'], { datumIds := [], cols := [] })] ['r', '/', 'x']
         [(['q'], { datumIds := [], cols := [] })] () ∧
     resource_given_datum_id [] ['u', 'i', 'd'] [] () = ['u', 'i', 'd'] ∧
     resource_given_datum_id [] (make_datum_id ['r'] ['x']) [] () = ['r']) :=
  ⟨by decide, by decide,
   C10_resource_given_datum_id_total [] [(['q'], { datumIds := [], cols := [] })] []
     [(['q'], { datumIds := [], cols := [] })] () () ['u', 'i', 'd'] ['r', '/', 'x'] ['r'] ['x']
     (by decide) (by decide)⟩

/-- Claim C3: insert_datum performs a single-row bulk registration when
the resource's container does not exist yet, and appends one row to
every column of the container (under the module's schema-homogeneity
invariant: the kwargs keys are exactly the container's column keys) when
it does; both paths return a datum whose datum_id is the resource uid,
the separator, and the fresh generated local id. -/
theorem C3_insert_datum_paths (store1 store2 : Store) (resource did1 did2 : Str)
    (kwargs1 kwargs2 : Row) (ks : Unit) (rc : Option Unit) (d1 d2 : Str) (f : H5File)
    (h1 : alookup store1 resource = none)
    (h2 : alookup store2 resource = some f)
    (h3 : f.cols.map Prod.fst = kwargs2.map Prod.fst)
    (h4 : (kwargs2.map Prod.fst).Nodup) :
    insert_datum store1 resource did1 kwargs1 ks rc d1 =
      .ok (aset store1 resource
             { datumIds := [d1], cols := kwargs1.map (fun p => (p.1, [p.2])) },
           { resource := resource, datum_id := make_datum_id resource d1,
             datum_kwargs := kwargs1 }) ∧
    insert_datum store2 resource did2 kwargs2 ks rc d2 =
      .ok (aset store2 resource
             { datumIds := append f.datumIds [d2],
               cols := (f.cols.zip kwargs2).map (fun pq => (pq.1.1, pq.1.2 ++ [pq.2.2])) },
           { resource := resource, datum_id := make_datum_id resource d2,
             datum_kwargs := kwargs2 }) := by
  constructor
  · simp [insert_datum, doc_or_uid_to_uid, h1, bulk_register_datum_table]
  · simp [insert_datum, doc_or_uid_to_uid, h2,
      appendKwargs_aligned f.cols kwargs2 h3 h4]

theorem C3_witness :
    alookup ([] : Store) ['r'] = none ∧
    alookup [(['r'], H5File.mk [['a']] [(['v'], [10])])] ['r'] =
      some (H5File.mk [['a']] [(['v'], [10])]) ∧
    (H5File.mk [['a']] [(['v'], [10])]).cols.map Prod.fst =
      ([(['v'], (20 : Int))] : Row).map Prod.fst ∧
    (([(['v'], (20 : Int))] : Row).map Prod.fst).Nodup ∧
    (insert_datum [] ['r'] [] [(['v'], 10)] () none ['a'] =
       .ok (aset [] ['r']
              { datumIds := [['a']],
                cols := ([(['v'], (10 : Int))] : Row).map (fun p => (p.1, [p.2])) },
            { resource := ['r'], datum_id := make_datum_id ['r'] ['a'],
              datum_kwargs := [(['v'], 10)] }) ∧
     insert_datum [(['r'], H5File.mk [['a']] [(['v'], [10])])] ['r'] []
         [(['v'], 20)] () none ['b'] =
       .ok (aset [(['r'], H5File.mk [['a']] [(['v'], [10])])] ['r']
              { datumIds := append (H5File.mk [['a']] [(['v'], [10])]).datumIds [['b']],
                cols := ((H5File.mk [['a']] [(['v'], [10])]).cols.zip
                    ([(['v'], (20 : Int))] : Row)).map
                  (fun pq => (pq.1.1, pq.1.2 ++ [pq.2.2])) },
            { resource := ['r'], datum_id := make_datum_id ['r'] ['b'],
              datum_kwargs := [(['v'], 20)] })) :=
  ⟨by decide, by decide, by decide, by decide,
   C3_insert_datum_paths [] [(['r'], H5File.mk [['a']] [(['v'], [10])])] ['r'] [] []
     [(['v'], 10)] [(['v'], 20)] () none ['a'] ['b'] (H5File.mk [['a']] [(['v'], [10])])
     (by decide) (by decide) (by decide) (by decide)⟩

/-- Claim C2 counterexample: a first bulk_insert_datum materializes the
resource, and a second bulk_insert_datum on the same resource does not
fail at all: the 'w'-mode file open truncates, so it succeeds and
replaces the container (no ResourceAlreadyMaterialized error exists in
the module). -/
theorem C2_counterexample :
    bulk_insert_datum [] ['r'] [] [[(['v'], 10)]] [['a']] =
      .ok ([(['r'], H5File.mk [['a']] [(['v'], [10])])], [['r', '/', 'a']]) ∧
    bulk_insert_datum [(['r'], H5File.mk [['a']] [(['v'], [10])])]
        ['r'] [] [[(['v'], 20)]] [['b']] =
      .ok ([(['r'], H5File.mk [['b']] [(['v'], [20])])], [['r', '/', 'b']]) := by
  constructor <;> rfl

/-- Claim C2 amended: a bulk_insert_datum on a resource whose container
already exists succeeds and overwrites the container with the new table;
bulk insertion is not a one-time operation per resource. -/
theorem C2_amended_overwrite (store : Store) (resource : Str) (dids : List Str)
    (table : List Row) (gen : List Str) (f : H5File)
    (h : alookup store resource = some f) :
    bulk_insert_datum store resource dids table gen =
      .ok (aset store resource
             { datumIds := gen.take table.length, cols := pdDataFrame table },
           (gen.take table.length).map (make_datum_id resource)) := rfl

theorem C2_amended_witness :
    alookup [(['r'], H5File.mk [['a']] [(['v'], [10])])] ['r'] =
      some (H5File.mk [['a']] [(['v'], [10])]) ∧
    bulk_insert_datum [(['r'], H5File.mk [['a']] [(['v'], [10])])]
        ['r'] [] [[(['v'], 20)]] [['b']] =
      .ok (aset [(['r'], H5File.mk [['a']] [(['v'], [10])])] ['r']
             { datumIds := [['b']].take ([[(['v'], (20 : Int))]] : List Row).length,
               cols := pdDataFrame [[(['v'], 20)]] },
           ([['b']].take ([[(['v'], (20 : Int))]] : List Row).length).map
             (make_datum_id ['r'])) :=
  ⟨by decide,
   C2_amended_overwrite [(['r'], H5File.mk [['a']] [(['v'], [10])])] ['r'] []
     [[(['v'], 20)]] [['b']] (H5File.mk [['a']] [(['v'], [10])]) (by decide)⟩

/-- Claim C6 counterexample: a well-formed datum_id whose local id is
absent from the resource's materialized table makes retrieve fail with
the uncaught pandas KeyError of df.loc, which is a different failure
from DatumNotFound. -/
theorem C6_counterexample :
    retrieve [(['r'], H5File.mk [['d']] [(['v'], [7])])]
        ['r', '/', 'x'] [] (fun _ _ => (0 : Int)) () =
      .error (.keyError ['x']) ∧
    Err.keyError ['x'] ≠ Err.datumNotFound := by
  constructor
  · rfl
  · decide

/-- Claim C6 amended: for every well-formed datum_id whose local id does
not occur in the owning resource's materialized table, retrieve fails,
but with the uncaught pandas KeyError of the df.loc row lookup, not with
DatumNotFound. -/
theorem C6_amended_keyError {β : Type} (store : Store) (cache : Cache)
    (did r d : Str) (f : H5File) (hnd : Str → (Str → Option Int) → β)
    (h1 : containsSep did = true) (h2 : partitionSep did = (r, d))
    (h3 : alookup cache r = none) (h4 : alookup store r = some f)
    (h5 : locIdx f.datumIds d = none) :
    retrieve store did cache hnd () = .error (.keyError d) ∧
    Err.keyError d ≠ Err.datumNotFound := by
  constructor
  · simp [retrieve, h1, h2, h3, h4, h5]
  · simp

theorem C6_amended_witness :
    containsSep ['r', '/', 'x'] = true ∧
    partitionSep ['r', '/', 'x'] = (['r'], ['x']) ∧
    alookup ([] : Cache) ['r'] = none ∧
    alookup [(['r'], H5File.mk [['d']] [(['v'], [7])])] ['r'] =
      some (H5File.mk [['d']] [(['v'], [7])]) ∧
    locIdx (H5File.mk [['d']] [(['v'], [7])]).datumIds ['x'] = none ∧
    (retrieve [(['r'], H5File.mk [['d']] [(['v'], [7])])] ['r', '/', 'x'] []
        (fun _ _ => (1 : Int)) () = .error (.keyError ['x']) ∧
     Err.keyError ['x'] ≠ Err.datumNotFound) :=
  ⟨by decide, by decide, by decide, by decide, by decide,
   C6_amended_keyError [(['r'], H5File.mk [['d']] [(['v'], [7])])] [] ['r', '/', 'x']
     ['r'] ['x'] (H5File.mk [['d']] [(['v'], [7])]) (fun _ _ => (1 : Int))
     (by decide) (by decide) (by decide) (by decide) (by decide)⟩

/-- Claim C7: for a datum_id whose local id is present in the owning
resource's stored table, retrieve through a cache warmed with that
resource's materialized table (as a prior retrieve leaves it, absent
external mutation) and retrieve through a cold empty cache return equal
materialized values: the hit path and the miss-and-fill path agree. -/
theorem C7_cache_equivalence {β : Type} (store : Store) (did r d : Str)
    (f : H5File) (cacheW : Cache) (hnd : Str → (Str → Option Int) → β)
    (h1 : containsSep did = true) (h2 : partitionSep did = (r, d))
    (h3 : alookup store r = some f) (h4 : alookup cacheW r = some f)
    (h5 : d ∈ f.datumIds) :
    Except.map Prod.fst (retrieve store did cacheW hnd ()) =
      Except.map Prod.fst (retrieve store did [] hnd ()) := by
  have hnil : alookup ([] : Cache) r = none := rfl
  simp only [retrieve, h1, h2, h3, h4, hnil]
  cases hc : locIdx f.datumIds d <;> simp [Except.map]

theorem C7_witness :
    containsSep ['r', '/', 'd'] = true ∧
    partitionSep ['r', '/', 'd'] = (['r'], ['d']) ∧
    alookup [(['r'], H5File.mk [['d']] [(['v'], [7])])] ['r'] =
      some (H5File.mk [['d']] [(['v'], [7])]) ∧
    alookup [(['r'], H5File.mk [['d']] [(['v'], [7])])] ['r'] =
      some (H5File.mk [['d']] [(['v'], [7])]) ∧
    ['d'] ∈ (H5File.mk [['d']] [(['v'], [7])]).datumIds ∧
    Except.map Prod.fst
        (retrieve [(['r'], H5File.mk [['d']] [(['v'], [7])])] ['r', '/', 'd']
          [(['r'], H5File.mk [['d']] [(['v'], [7])])] (fun _ m => (m ['v']).getD 0) ()) =
      Except.map Prod.fst
        (retrieve [(['r'], H5File.mk [['d']] [(['v'], [7])])] ['r', '/', 'd']
          [] (fun _ m => (m ['v']).getD 0) ()) :=
  ⟨by decide, by decide, by decide, by decide, by decide,
   C7_cache_equivalence [(['r'], H5File.mk [['d']] [(['v'], [7])])] ['r', '/', 'd']
     ['r'] ['d'] (H5File.mk [['d']] [(['v'], [7])])
     [(['r'], H5File.mk [['d']] [(['v'], [7])])] (fun _ m => (m ['v']).getD 0)
     (by decide) (by decide) (by decide) (by decide) (by decide)⟩

/-! The round-trip development for C1. -/

theorem tableFile_keys (K : List Str) (rows : List Row) (ids : List Str) :
    (tableFile K rows ids).cols.map Prod.fst = K := by
  induction K with
  | nil => rfl
  | cons k ks ih =>
    simp only [tableFile, List.map_cons] at ih ⊢
    exact congrArg (List.cons k) ih

theorem map_keys_alookup_id (r : Row) (h : (r.map Prod.fst).Nodup) :
    (r.map Prod.fst).map (fun k => (k, (alookup r k).getD 0)) = r := by
  have := map_keys_alookup r h (fun v => v)
  simpa using this

theorem retrieve_tableFile {β : Type} (hnd : Str → (Str → Option Int) → β)
    (s' : Store) (resource : Str) (K : List Str) (rows : List Row) (ids : List Str)
    (h0 : containsSep resource = false)
    (hs : alookup s' resource = some (tableFile K rows ids))
    (hK : K.Nodup) (hkeys : ∀ r ∈ rows, r.map Prod.fst = K)
    (hids : ids.Nodup) (j : Nat) (hj : j < rows.length) (hj' : j < ids.length) :
    Except.map Prod.fst
        (retrieve s' (make_datum_id resource (ids.get ⟨j, hj'⟩)) [] hnd ()) =
      .ok (hnd resource (rowFun (rows.get ⟨j, hj⟩))) := by
  have hsep : containsSep (make_datum_id resource (ids.get ⟨j, hj'⟩)) = true := by
    rw [make_datum_id]
    exact containsSep_append_sep _ _
  have hpart : partitionSep (make_datum_id resource (ids.get ⟨j, hj'⟩)) =
      (resource, ids.get ⟨j, hj'⟩) := by
    rw [make_datum_id]
    exact partitionSep_append _ _ h0
  have hnil : alookup ([] : Cache) resource = none := rfl
  have hloc : locIdx (tableFile K rows ids).datumIds (ids.get ⟨j, hj'⟩) = some j :=
    locIdx_get ids hids j hj'
  have hkeysj : (rows.get ⟨j, hj⟩).map Prod.fst = K :=
    hkeys _ (List.get_mem rows j hj)
  have hndj : ((rows.get ⟨j, hj⟩).map Prod.fst).Nodup := by
    rw [hkeysj]
    exact hK
  have hrow : rowAt (tableFile K rows ids).cols j = rows.get ⟨j, hj⟩ := by
    have hcong : ∀ k ∈ K,
        (k, (rows.map (fun r => (alookup r k).getD 0)).getD j 0) =
        (k, (alookup (rows.get ⟨j, hj⟩) k).getD 0) := by
      intro k _
      rw [getD_map_lt _ rows j hj]
    have hid := map_keys_alookup_id (rows.get ⟨j, hj⟩) hndj
    rw [hkeysj] at hid
    calc rowAt (tableFile K rows ids).cols j
        = K.map (fun k => (k, (rows.map (fun r => (alookup r k).getD 0)).getD j 0)) := by
          rw [rowAt, tableFile, List.map_map]
          rfl
      _ = K.map (fun k => (k, (alookup (rows.get ⟨j, hj⟩) k).getD 0)) :=
          List.map_congr_left hcong
      _ = rows.get ⟨j, hj⟩ := hid
  simp only [retrieve, hsep, hpart, hnil, hs, hloc, Bool.true_eq_false, if_false, hrow,
    Except.map]

theorem insertMany_go (resource : Str) (K : List Str) (hK : K.Nodup)
    (rows : List Row) :
    ∀ (ids : List Str) (store : Store) (done : List Row) (doneIds : List Str),
      (∀ r ∈ rows, r.map Prod.fst = K) →
      ids.length = rows.length →
      alookup store resource = some (tableFile K done doneIds) →
      ∃ s', insertMany resource store rows ids =
              .ok (s', ids.map (make_datum_id resource)) ∧
            alookup s' resource = some (tableFile K (done ++ rows) (doneIds ++ ids)) := by
  induction rows with
  | nil =>
    intro ids store done doneIds _ hlen hst
    have hids : ids = [] := List.length_eq_zero.mp hlen
    subst hids
    exact ⟨store, rfl, by simpa using hst⟩
  | cons r rs ih =>
    intro ids store done doneIds hkeys hlen hst
    cases ids with
    | nil => simp at hlen
    | cons i is =>
      have hkr : r.map Prod.fst = K := hkeys r (List.mem_cons_self r rs)
      have hndr : (r.map Prod.fst).Nodup := by
        rw [hkr]
        exact hK
      have hck : (tableFile K done doneIds).cols.map Prod.fst = r.map Prod.fst := by
        rw [tableFile_keys, hkr]
      have halign := appendKwargs_aligned (tableFile K done doneIds).cols r hck hndr
      have hr : K.map (fun k => (k, (alookup r k).getD 0)) = r := by
        have := map_keys_alookup_id r hndr
        rwa [hkr] at this
      have hcols : ((tableFile K done doneIds).cols.zip r).map
          (fun pq => (pq.1.1, pq.1.2 ++ [pq.2.2])) =
          (tableFile K (done ++ [r]) (doneIds ++ [i])).cols := by
        conv_lhs => rw [← hr]
        rw [show (tableFile K done doneIds).cols =
            K.map (fun k => (k, done.map (fun r' => (alookup r' k).getD 0))) from rfl]
        rw [List.zip_map', List.map_map]
        show K.map _ = K.map _
        apply List.map_congr_left
        intro k _
        simp
      have hins : insert_datum store resource [] r () none i =
          .ok (aset store resource (tableFile K (done ++ [r]) (doneIds ++ [i])),
               { resource := resource, datum_id := make_datum_id resource i,
                 datum_kwargs := r }) := by
        simp only [insert_datum, doc_or_uid_to_uid, hst, halign, hcols]
        rfl
      obtain ⟨s', hrun, hlook⟩ := ih is
          (aset store resource (tableFile K (done ++ [r]) (doneIds ++ [i])))
          (done ++ [r]) (doneIds ++ [i])
          (fun r' hr' => hkeys r' (List.mem_cons_of_mem r hr'))
          (by simpa using hlen)
          (alookup_aset_self _ _ _)
      refine ⟨s', ?_, ?_⟩
      · simp only [insertMany, hins, hrun, List.map_cons]
      · simpa [List.append_assoc] using hlook

/-- Claim C1: starting from a store without the resource's container, a
sequence of N insert_datum calls with kwargs rows over the same
(duplicate-free) key set and pairwise-distinct generated local ids
returns N pairwise-distinct datum_ids, and retrieve on the j-th of them
applies the resource's handler to exactly the row of kwargs that the
j-th call inserted. -/
theorem C1_insert_datum_roundtrip {β : Type} (store : Store) (resource : Str)
    (K : List Str) (rows : List Row) (ids : List Str)
    (hnd : Str → (Str → Option Int) → β)
    (h0 : containsSep resource = false)
    (h1 : alookup store resource = none)
    (hK : K.Nodup)
    (hkeys : ∀ r ∈ rows, r.map Prod.fst = K)
    (hlen : ids.length = rows.length)
    (hids : ids.Nodup) :
    ∃ s', insertMany resource store rows ids =
            .ok (s', ids.map (make_datum_id resource)) ∧
          (ids.map (make_datum_id resource)).Nodup ∧
          ∀ j (hj : j < rows.length) (hj' : j < ids.length),
            Except.map Prod.fst
                (retrieve s' (make_datum_id resource (ids.get ⟨j, hj'⟩)) [] hnd ()) =
              .ok (hnd resource (rowFun (rows.get ⟨j, hj⟩))) := by
  have hdids : (ids.map (make_datum_id resource)).Nodup :=
    List.Nodup.map (make_datum_id_inj resource) hids
  cases rows with
  | nil =>
    have hids0 : ids = [] := List.length_eq_zero.mp hlen
    subst hids0
    exact ⟨store, rfl, by simp, fun j hj _ => absurd hj (Nat.not_lt_zero j)⟩
  | cons r rs =>
    cases ids with
    | nil => simp at hlen
    | cons i is =>
      have hkr : r.map Prod.fst = K := hkeys r (List.mem_cons_self r rs)
      have hndr : (r.map Prod.fst).Nodup := by
        rw [hkr]
        exact hK
      have hsingle : r.map (fun p => (p.1, [p.2])) = (tableFile K [r] [i]).cols := by
        have hmk := map_keys_alookup r hndr (fun v => [v])
        rw [hkr] at hmk
        exact hmk.symm
      have hins1 : insert_datum store resource [] r () none i =
          .ok (aset store resource (tableFile K [r] [i]),
               { resource := resource, datum_id := make_datum_id resource i,
                 datum_kwargs := r }) := by
        simp only [insert_datum, doc_or_uid_to_uid, h1, bulk_register_datum_table,
          Bool.false_eq_true, if_false, List.take_succ_cons, List.take_zero,
          List.map_cons, List.map_nil, hsingle]
        rfl
      obtain ⟨s', hrun, hlook⟩ := insertMany_go resource K hK rs is
          (aset store resource (tableFile K [r] [i])) [r] [i]
          (fun r' hr' => hkeys r' (List.mem_cons_of_mem r hr'))
          (by simpa using hlen)
          (alookup_aset_self _ _ _)
      refine ⟨s', ?_, hdids, ?_⟩
      · simp only [insertMany, hins1, hrun, List.map_cons]
      · intro j hj hj'
        have hlook' : alookup s' resource = some (tableFile K (r :: rs) (i :: is)) := by
          simpa using hlook
        exact retrieve_tableFile hnd s' resource K (r :: rs) (i :: is) h0 hlook' hK
          hkeys hids j hj hj'

theorem C1_witness :
    containsSep ['r'] = false ∧
    alookup ([] : Store) ['r'] = none ∧
    ([['v']] : List Str).Nodup ∧
    (∀ r ∈ ([[(['v'], (10 : Int))], [(['v'], (20 : Int))]] : List Row),
      r.map Prod.fst = [['v']]) ∧
    ([['a'], ['b']] : List Str).length = ([[(['v'], (10 : Int))], [(['v'], (20 : Int))]] : List Row).length ∧
    ([['a'], ['b']] : List Str).Nodup ∧
    (∃ s', insertMany ['r'] [] [[(['v'], 10)], [(['v'], 20)]] [['a'], ['b']] =
             .ok (s', ([['a'], ['b']] : List Str).map (make_datum_id ['r'])) ∧
           (([['a'], ['b']] : List Str).map (make_datum_id ['r'])).Nodup ∧
           ∀ j (hj : j < ([[(['v'], (10 : Int))], [(['v'], (20 : Int))]] : List Row).length)
             (hj' : j < ([['a'], ['b']] : List Str).length),
             Except.map Prod.fst
                 (retrieve s'
                   (make_datum_id ['r'] (([['a'], ['b']] : List Str).get ⟨j, hj'⟩)) []
                   (fun _ m => (m ['v']).getD 0) ()) =
               .ok ((fun _ m => (m ['v']).getD 0) ['r']
                 (rowFun (([[(['v'], (10 : Int))], [(['v'], (20 : Int))]] : List Row).get
                   ⟨j, hj⟩)))) :=
  ⟨by decide, by decide, by decide, by decide, by decide, by decide,
   C1_insert_datum_roundtrip [] ['r'] [['v']] [[(['v'], 10)], [(['v'], 20)]]
     [['a'], ['b']] (fun _ m => (m ['v']).getD 0)
     (by decide) (by decide) (by decide) (by decide) (by decide) (by decide)⟩

end Databroker
